import Mathlib

/-!
Verification of the coordinator-selection and connection-maintenance core of
run_pastel_decentralized_datomic_client.py.

The development shallowly embeds the program:

* Python's int(s, 16) is modelled by parseHex, restricted to nonempty strings
  of bare hexadecimal digits (the only shapes this program ever produces:
  hexdigest outputs); Python's ValueError on unparsable input is modelled by
  Option.none.
* hashlib.sha256(s.encode()).hexdigest() is modelled bit-exactly by sha256hex:
  a full SHA-256 implementation over Nat (words reduced mod 2^32), with UTF-8
  encoding of the input string, producing the 64-character lowercase hex digest.
* The module-global mutable state (datomic_client, current_transactor_ip) is
  modelled by the explicit state record St, threaded through the functions.
  St additionally instruments handle lifecycle: opens records every Client
  construction, and closes counts close operations (the source contains no
  close call anywhere, so no transition ever increments it).
* The infinite maintenance loop periodic_connection_check is modelled on an
  arbitrary finite prefix of tick outcomes; a tick outcome none stands for
  get_pastel_info raising a network error during that tick.
-/

set_option maxRecDepth 100000

/-- Value of one hexadecimal digit as accepted by Python's int(s, 16)
(case-insensitive). -/
def hexDigitVal (c : Char) : Option Nat :=
  if 48 ≤ c.toNat ∧ c.toNat ≤ 57 then some (c.toNat - 48)
  else if 97 ≤ c.toNat ∧ c.toNat ≤ 102 then some (c.toNat - 87)
  else if 65 ≤ c.toNat ∧ c.toNat ≤ 70 then some (c.toNat - 55)
  else none

/-- Big-endian accumulation of hexadecimal digits; none on the first
non-digit character. -/
def parseHexCore : Nat → List Char → Option Nat
  | acc, [] => some acc
  | acc, c :: cs =>
    match hexDigitVal c with
    | some v => parseHexCore (16 * acc + v) cs
    | none => none

/-- Model of Python int(s, 16) on nonempty strings of bare hexadecimal
digits, the only argument shapes this program produces (hexdigest outputs).
Python's ValueError (empty string or non-digit character) is Option.none. -/
def parseHex (s : String) : Option Nat :=
  if s.data.isEmpty then none else parseHexCore 0 s.data

/-- Source line 39-40: calculate_xor_distance(hash1, hash2) =
int(hash1, 16) XOR int(hash2, 16). A parse failure (ValueError) is none.
Note the source performs no length validation of any kind. -/
def calculate_xor_distance (hash1 hash2 : String) : Option Nat :=
  match parseHex hash1, parseHex hash2 with
  | some a, some b => some (a ^^^ b)
  | _, _ => none

/-! SHA-256, modelling hashlib.sha256 bit-exactly over Nat. -/

/-- Reduce a Nat to a 32-bit word. -/
def w32 (n : Nat) : Nat := n % 4294967296

/-- 32-bit right rotation (argument assumed < 2^32). -/
def rotr (k x : Nat) : Nat := w32 ((x >>> k) ||| (x <<< (32 - k)))

/-- SHA-256 Ch function; bitwise not is xor with 2^32 - 1. -/
def shaCh (x y z : Nat) : Nat := (x &&& y) ^^^ ((x ^^^ 4294967295) &&& z)

/-- SHA-256 Maj function. -/
def shaMaj (x y z : Nat) : Nat := (x &&& y) ^^^ ((x &&& z) ^^^ (y &&& z))

/-- SHA-256 big sigma 0. -/
def bsig0 (x : Nat) : Nat := (rotr 2 x) ^^^ ((rotr 13 x) ^^^ (rotr 22 x))

/-- SHA-256 big sigma 1. -/
def bsig1 (x : Nat) : Nat := (rotr 6 x) ^^^ ((rotr 11 x) ^^^ (rotr 25 x))

/-- SHA-256 small sigma 0. -/
def ssig0 (x : Nat) : Nat := (rotr 7 x) ^^^ ((rotr 18 x) ^^^ (x >>> 3))

/-- SHA-256 small sigma 1. -/
def ssig1 (x : Nat) : Nat := (rotr 17 x) ^^^ ((rotr 19 x) ^^^ (x >>> 10))

/-- The 64 SHA-256 round constants (decimal). -/
def K256 : List Nat :=
  [1116352408, 1899447441, 3049323471, 3921009573, 961987163, 1508970993,
   2453635748, 2870763221, 3624381080, 310598401, 607225278, 1426881987,
   1925078388, 2162078206, 2614888103, 3248222580, 3835390401, 4022224774,
   264347078, 604807628, 770255983, 1249150122, 1555081692, 1996064986,
   2554220882, 2821834349, 2952996808, 3210313671, 3336571891, 3584528711,
   113926993, 338241895, 666307205, 773529912, 1294757372, 1396182291,
   1695183700, 1986661051, 2177026350, 2456956037, 2730485921, 2820302411,
   3259730800, 3345764771, 3516065817, 3600352804, 4094571909, 275423344,
   430227734, 506948616, 659060556, 883997877, 958139571, 1322822218,
   1537002063, 1747873779, 1955562222, 2024104815, 2227730452, 2361852424,
   2428436474, 2756734187, 3204031479, 3329325298]

/-- The initial SHA-256 hash state (decimal). -/
def H256init : List Nat :=
  [1779033703, 3144134277, 1013904242, 2773480762,
   1359893119, 2600822924, 528734635, 1541459225]

/-- UTF-8 encoding of one character, as Python's str.encode() produces. -/
def encodeChar (c : Char) : List Nat :=
  let n := c.toNat
  if n < 128 then [n]
  else if n < 2048 then [192 ||| (n >>> 6), 128 ||| (n &&& 63)]
  else if n < 65536 then [224 ||| (n >>> 12), 128 ||| ((n >>> 6) &&& 63), 128 ||| (n &&& 63)]
  else [240 ||| (n >>> 18), 128 ||| ((n >>> 12) &&& 63), 128 ||| ((n >>> 6) &&& 63), 128 ||| (n &&& 63)]

/-- UTF-8 encoding of a string: model of Python str.encode(). -/
def encodeStr (s : String) : List Nat := (s.data.map encodeChar).flatten

/-- The 8-byte big-endian message length used by SHA-256 padding. -/
def lenBytes (n : Nat) : List Nat :=
  [(n >>> 56) % 256, (n >>> 48) % 256, (n >>> 40) % 256, (n >>> 32) % 256,
   (n >>> 24) % 256, (n >>> 16) % 256, (n >>> 8) % 256, n % 256]

/-- SHA-256 padding: 0x80, zeros to 56 mod 64, then the bit length. -/
def padBytes (msg : List Nat) : List Nat :=
  let L := msg.length
  msg ++ 128 :: List.replicate ((64 - ((L + 9) % 64)) % 64) 0 ++ lenBytes (8 * L)

/-- Group bytes into big-endian 32-bit words. -/
def toWords : List Nat → List Nat
  | b0 :: b1 :: b2 :: b3 :: rest => (((b0 * 256 + b1) * 256 + b2) * 256 + b3) :: toWords rest
  | _ => []

/-- Extend a 16-word block to the 64-word message schedule (48 steps). -/
def extendW : Nat → List Nat → List Nat
  | 0, w => w
  | n + 1, w =>
    extendW n (w ++ [w32 (w.getD (w.length - 16) 0 + ssig0 (w.getD (w.length - 15) 0) +
                          w.getD (w.length - 7) 0 + ssig1 (w.getD (w.length - 2) 0))])

/-- One SHA-256 round (with t1 inlined) over the working state
[a,b,c,d,e,f,g,h]; identity on malformed states. -/
def roundStep (k w : Nat) : List Nat → List Nat
  | [a, b, c, d, e, f, g, hh] =>
    [w32 (w32 (hh + bsig1 e + shaCh e f g + k + w) + w32 (bsig0 a + shaMaj a b c)),
     a, b, c, w32 (d + w32 (hh + bsig1 e + shaCh e f g + k + w)), e, f, g]
  | st => st

/-- The 64 SHA-256 rounds over the working state. -/
def compressLoop (kws : List (Nat × Nat)) (st : List Nat) : List Nat :=
  kws.foldl (fun s kw => roundStep kw.1 kw.2 s) st

/-- Pointwise mod-2^32 addition of the working state into the hash state. -/
def addWords (hs out : List Nat) : List Nat :=
  match hs, out with
  | [h0, h1, h2, h3, h4, h5, h6, h7], [a, b, c, d, e, f, g, hh] =>
    [w32 (h0 + a), w32 (h1 + b), w32 (h2 + c), w32 (h3 + d),
     w32 (h4 + e), w32 (h5 + f), w32 (h6 + g), w32 (h7 + hh)]
  | _, _ => hs

/-- One SHA-256 block compression: schedule, 64 rounds, and state addition. -/
def compressBlock (hs block : List Nat) : List Nat :=
  addWords hs (compressLoop (K256.zip (extendW 48 block)) hs)

/-- Compress successive 16-word blocks; the fuel is the number of blocks. -/
def sha256Blocks : Nat → List Nat → List Nat → List Nat
  | 0, hs, _ => hs
  | n + 1, hs, ws => sha256Blocks n (compressBlock hs (ws.take 16)) (ws.drop 16)

/-- The eight 32-bit words of the SHA-256 digest of a string. -/
def sha256Words (s : String) : List Nat :=
  let ws := toWords (padBytes (encodeStr s))
  sha256Blocks (ws.length / 16) H256init ws

/-- The SHA-256 digest of a string as a 256-bit natural number. -/
def sha256Nat (s : String) : Nat :=
  (sha256Words s).foldl (fun a w => a * 4294967296 + w) 0

/-- Lowercase hexadecimal digit character for a value below 16. -/
def hexChar (n : Nat) : Char := if n < 10 then Char.ofNat (48 + n) else Char.ofNat (87 + n)

/-- Fixed-width big-endian lowercase hexadecimal rendering. -/
def toHexFixed : Nat → Nat → List Char
  | 0, _ => []
  | k + 1, v => toHexFixed k (v / 16) ++ [hexChar (v % 16)]

/-- Model of hashlib.sha256(s.encode()).hexdigest(): the 64-character
lowercase hexadecimal digest. -/
def sha256hex (s : String) : String := String.mk (toHexFixed 64 (sha256Nat s))

/-! String helpers used by the selector. -/

/-- Whether the first list is a prefix of the second (Bool, executable). -/
def listPrefixOf : List Char → List Char → Bool
  | [], _ => true
  | _ :: _, [] => false
  | a :: as, b :: bs => a == b && listPrefixOf as bs

/-- Whether the needle occurs as a contiguous run in the haystack:
model of Python's substring containment test (needle in haystack). -/
def listContains (needle : List Char) : List Char → Bool
  | [] => listPrefixOf needle []
  | c :: rest => listPrefixOf needle (c :: rest) || listContains needle rest

/-- Source line 54: the eligibility test is the Python substring test
"ENABLED" in info, applied to the whole masternode info string. -/
def eligible (info : String) : Bool := listContains "ENABLED".data info.data

/-- Source line 60: info.split(':')[0], everything before the first colon
(the whole string when no colon occurs). -/
def hostPart (info : String) : String := String.mk (info.data.takeWhile (fun c => c != ':'))

/-- The lifecycle-status field of a full-mode masternode info string: its
first whitespace-separated token (full-mode values begin with the status). -/
def statusOf (info : String) : String := String.mk (info.data.takeWhile (fun c => c != ' '))

/-! The data model: snapshots and the process-global mutable state. -/

/-- The snapshot consumed by one evaluation, as assembled by get_pastel_info:
the merkle root of the chain tip, the node's own first PastelID, and the
masternode mapping in its iteration order (a Python dict iterates in
insertion order, so the mapping is embedded as an association list). -/
structure Snap where
  merkle_root : String
  pastel_id : String
  masternode_list : List (String × String)
deriving DecidableEq

/-- A datomic Client object; id instruments object identity (which
construction produced it), addr is the constructor argument string. -/
structure Client where
  id : Nat
  addr : String
deriving DecidableEq

/-- The module-global mutable state of the source (datomic_client,
current_transactor_ip), plus lifecycle instrumentation: nextId numbers
Client constructions, opens logs every Client constructor argument, and
closes counts close operations. The source never closes a handle (there is
no close call in the file), so no transition increments closes. -/
structure St where
  datomic_client : Option Client
  current_transactor_ip : Option String
  nextId : Nat
  opens : List String
  closes : Nat
deriving DecidableEq

/-- The initial module state: both globals are None. -/
def st0 : St := { datomic_client := none, current_transactor_ip := none, nextId := 0, opens := [], closes := 0 }

/-! The coordinator selector, source lines 42-62. -/

/-- Source lines 53-60, one loop iteration: skip the peer unless "ENABLED"
occurs in its info string; otherwise hash the node key, compute its XOR
distance to the merkle-root hash, and update the running
(current_closest, current_transactor_ip) only on strictly smaller distance,
storing info.split(':')[0]. -/
def determineStep (merkle_root_hash : String) (acc : Nat × String) (kv : String × String) :
    Option (Nat × String) :=
  if eligible kv.2 then
    match calculate_xor_distance merkle_root_hash (sha256hex kv.1) with
    | some node_distance =>
      some (if node_distance < acc.1 then (node_distance, hostPart kv.2) else acc)
    | none => none
  else some acc

/-- Source lines 42-62: determine_current_transactor's computation of the
winner from a snapshot. The source keeps the running winner in the global
current_transactor_ip itself; the embedding computes the same value
functionally and commits it to the global afterwards
(determine_current_transactor below), which is equivalent because the
intermediate global states are not observable within the call. A hash-parse
failure (impossible for real digests, see determineCore_eq) is none. -/
def determineCore (s : Snap) : Option String :=
  match calculate_xor_distance (sha256hex s.merkle_root) (sha256hex s.pastel_id) with
  | none => none
  | some own_xor_distance =>
    match s.masternode_list.foldlM (determineStep (sha256hex s.merkle_root))
        (own_xor_distance, "localhost") with
    | some r => some r.2
    | none => none

/-- Source lines 42-62 as a state transition: the returned winner is also
written to the global current_transactor_ip before returning (lines 43, 51,
60 all assign the global, and line 62 returns it). -/
def determine_current_transactor (st : St) (s : Snap) : Option (String × St) :=
  match determineCore s with
  | some w => some (w, { st with current_transactor_ip := some w })
  | none => none

/-- Source lines 64-70: connect_to_datomic. After determine_current_transactor
has (already) updated the global current_transactor_ip, the guard
transactor_ip != current_transactor_ip or datomic_client is None decides
whether to construct a new Client on f"{ip}:4334/pastel-network". The source
closes nothing. -/
def connect_to_datomic (st : St) (s : Snap) : Option (Client × St) :=
  match determine_current_transactor st s with
  | none => none
  | some (t, st1) =>
    if some t ≠ st1.current_transactor_ip ∨ st1.datomic_client = none then
      let c : Client := { id := st1.nextId, addr := t ++ ":4334/pastel-network" }
      some (c, { st1 with
                  current_transactor_ip := some t,
                  datomic_client := some c,
                  nextId := st1.nextId + 1,
                  opens := st1.opens ++ [t ++ ":4334/pastel-network"] })
    else
      match st1.datomic_client with
      | some c => some (c, st1)
      | none => none

/-- A sequence of connect_to_datomic calls, collecting the returned Client
of each call. -/
def runConnects : St → List Snap → Option (List Client × St)
  | st, [] => some ([], st)
  | st, s :: rest =>
    (connect_to_datomic st s).bind
      (fun r => (runConnects r.2 rest).map (fun q => (r.1 :: q.1, q.2)))

/-- Source lines 92-95: the maintenance loop, observed over a finite prefix
of tick outcomes. Each tick awaits connect_to_datomic and then sleeps; a
tick outcome none stands for get_pastel_info raising a network error inside
that tick's connect_to_datomic call. The loop body has no exception handler,
so a raise propagates out of the loop (Except.error); otherwise the loop
sleeps (counted) and continues. -/
def periodic_connection_check : St → Nat → List (Option Snap) → Except Unit (St × Nat)
  | st, sleeps, [] => Except.ok (st, sleeps)
  | _, _, none :: _ => Except.error ()
  | st, sleeps, some s :: rest =>
    match connect_to_datomic st s with
    | none => Except.error ()
    | some r => periodic_connection_check r.2 (sleeps + 1) rest

/-! A pure reformulation of the selector, proved equivalent below and used
to state and prove the order-theoretic claims. -/

/-- XOR distance between the SHA-256 digests of two strings, as a Nat. -/
def distTo (m k : String) : Nat := sha256Nat m ^^^ sha256Nat k

/-- The (distance, host) pairs of the eligible entries of a peer list,
in iteration order. -/
def candList (m : String) (l : List (String × String)) : List (Nat × String) :=
  l.filterMap (fun kv => if eligible kv.2 then some (distTo m kv.1, hostPart kv.2) else none)

/-- The (distance, host) pairs of eligible peers in iteration order. -/
def candidates (s : Snap) : List (Nat × String) :=
  candList s.merkle_root s.masternode_list

/-- Strict-improvement selection step on (best distance, winner). -/
def selStep (acc : Nat × String) (c : Nat × String) : Nat × String :=
  if c.1 < acc.1 then c else acc

/-- The running (best distance, winner) after folding all candidates,
starting from self's distance and the "localhost" sentinel. -/
def runState (s : Snap) : Nat × String :=
  (candidates s).foldl selStep (distTo s.merkle_root s.pastel_id, "localhost")

/-- The pure selector: the winner component of the final running state. -/
def selectT (s : Snap) : String := (runState s).2

/-- One selection step of the source loop, as a pure function (proved to
agree with determineStep on real digests in determineStep_eq). -/
def pureStep (m : String) (acc : Nat × String) (kv : String × String) : Nat × String :=
  if eligible kv.2 then
    (if distTo m kv.1 < acc.1 then (distTo m kv.1, hostPart kv.2) else acc)
  else acc

/-- connect_to_datomic как a total function (proved to agree with it in
connect_eq): because determine_current_transactor has already overwritten
the global current_transactor_ip with the fresh winner, the guard of line 67
degenerates to "datomic_client is None". -/
def connectT (st : St) (s : Snap) : Client × St :=
  match st.datomic_client with
  | none =>
    (⟨st.nextId, selectT s ++ ":4334/pastel-network"⟩,
     { st with
        current_transactor_ip := some (selectT s),
        datomic_client := some ⟨st.nextId, selectT s ++ ":4334/pastel-network"⟩,
        nextId := st.nextId + 1,
        opens := st.opens ++ [selectT s ++ ":4334/pastel-network"] })
  | some c => (c, { st with current_transactor_ip := some (selectT s) })

/-- A lowercase hexadecimal digit character (0-9, a-f), the alphabet of
hexdigest outputs. -/
def isLowerHexDigit (c : Char) : Bool :=
  (48 ≤ c.toNat && c.toNat ≤ 57) || (97 ≤ c.toNat && c.toNat ≤ 102)

/-- A hex digest string: nonempty, all lowercase hexadecimal digits (the
exact format hexdigest produces). -/
def digestStr (s : String) : Bool := !s.data.isEmpty && s.data.all isLowerHexDigit

/-- The big-endian value of a list of hexadecimal digit characters. -/
def hexValBE : List Char → Nat
  | [] => 0
  | c :: cs => (hexDigitVal c).getD 0 * 16 ^ cs.length + hexValBE cs

/-- Concrete snapshot with no peers at all. -/
def snapA : Snap := ⟨"m1", "selfnode", []⟩

/-- Concrete snapshot with one enabled peer that beats self. -/
def snapB : Snap := ⟨"m1", "selfnode", [("node1", "10.0.0.2:9933 ENABLED")]⟩

/-- Concrete snapshot with one PRE_ENABLED peer that beats self. -/
def snapC3 : Snap := ⟨"m1", "selfnode", [("nodeC", "PRE_ENABLED 10.0.0.7:9933")]⟩

/-- Concrete snapshot with one DISABLED peer. -/
def snapD : Snap := ⟨"m1", "selfnode", [("nodeD", "DISABLED 10.0.0.5:9933")]⟩

/-- Concrete snapshot with two enabled peers. -/
def snapP1 : Snap :=
  ⟨"m1", "selfnode", [("node1", "10.0.0.2:9933 ENABLED"), ("node8", "10.0.0.8:9933 ENABLED")]⟩

/-- snapP1 with its peer mapping in the opposite iteration order. -/
def snapP2 : Snap :=
  ⟨"m1", "selfnode", [("node8", "10.0.0.8:9933 ENABLED"), ("node1", "10.0.0.2:9933 ENABLED")]⟩

/-- The Client constructed by the first connect_to_datomic call from st0 on
snapA (winner "localhost"). -/
def clientA : Client := ⟨0, "localhost:4334/pastel-network"⟩

/-- The module state after that first call. -/
def stA : St := ⟨some clientA, some "localhost", 1, ["localhost:4334/pastel-network"], 0⟩

/-- The module state after a further call that selects winner "10.0.0.2":
only the global target string moves; the handle and the open log do not. -/
def stB : St := ⟨some clientA, some "10.0.0.2", 1, ["localhost:4334/pastel-network"], 0⟩

/-! Parsing lemmas: Python int(s, 16) round-trips with fixed-width
lowercase hexadecimal rendering. -/

/-- parseHexCore distributes over append via Option.bind. -/
theorem parseHexCore_append (l₁ l₂ : List Char) : ∀ acc,
    parseHexCore acc (l₁ ++ l₂) = (parseHexCore acc l₁).bind (fun a => parseHexCore a l₂) := by
  induction l₁ with
  | nil => intro acc; rfl
  | cons c cs ih =>
    intro acc
    cases h : hexDigitVal c with
    | none => simp [parseHexCore, h]
    | some v => simp [parseHexCore, h, ih]

/-- hexChar is a right inverse of hexDigitVal on digit values. -/
theorem hexDigitVal_hexChar : ∀ d, d < 16 → hexDigitVal (hexChar d) = some d := by decide

/-- toHexFixed renders exactly the requested number of digits. -/
theorem toHexFixed_length (k : Nat) : ∀ v, (toHexFixed k v).length = k := by
  induction k with
  | zero => intro v; rfl
  | succ k ih => intro v; simp [toHexFixed, ih]

/-- The positional step identity for base-16 digit peeling. -/
theorem hexDigit_step_mod (v k : Nat) :
    16 * (v / 16 % 16 ^ k) + v % 16 = v % 16 ^ (k + 1) := by
  have hp : 0 < 16 ^ k := Nat.pow_pos (by norm_num)
  have hq : v / 16 % 16 ^ k < 16 ^ k := Nat.mod_lt _ hp
  have hr : v % 16 < 16 := Nat.mod_lt _ (by norm_num)
  have h1 : v % 16 ^ (k + 1) = v % (16 * 16 ^ k) := by rw [pow_succ, mul_comm]
  have h2 : v = 16 * (v / 16) + v % 16 := (Nat.div_add_mod v 16).symm
  rw [h1]
  conv_rhs => rw [h2, Nat.add_mod, Nat.mul_mod_mul_left]
  rw [Nat.mod_eq_of_lt (show v % 16 < 16 * 16 ^ k by omega),
    Nat.mod_eq_of_lt (show 16 * (v / 16 % 16 ^ k) + v % 16 < 16 * 16 ^ k by omega)]

/-- Evaluation of parseHexCore on a single digit character. -/
theorem parseHexCore_singleton (acc : Nat) (d : Nat) (hd : d < 16) :
    parseHexCore acc [hexChar d] = some (16 * acc + d) := by
  simp [parseHexCore, hexDigitVal_hexChar d hd]

/-- Parsing a fixed-width hexadecimal rendering yields the value mod 16^k. -/
theorem parseHexCore_toHexFixed (k : Nat) : ∀ v acc,
    parseHexCore acc (toHexFixed k v) = some (acc * 16 ^ k + v % 16 ^ k) := by
  induction k with
  | zero => intro v acc; simp [toHexFixed, parseHexCore, Nat.mod_one]
  | succ k ih =>
    intro v acc
    rw [toHexFixed, parseHexCore_append, ih]
    rw [Option.some_bind, parseHexCore_singleton _ _ (Nat.mod_lt _ (by norm_num))]
    congr 1
    calc 16 * (acc * 16 ^ k + v / 16 % 16 ^ k) + v % 16
        = acc * (16 ^ k * 16) + (16 * (v / 16 % 16 ^ k) + v % 16) := by ring
      _ = acc * 16 ^ (k + 1) + v % 16 ^ (k + 1) := by rw [hexDigit_step_mod, pow_succ]

/-! Bounds on the SHA-256 state: every word stays below 2^32, so the
digest value stays below 16^64. -/

/-- A well-formed SHA-256 working state: eight words below 2^32. -/
def goodWords (l : List Nat) : Prop := l.length = 8 ∧ ∀ x ∈ l, x < 4294967296

/-- Word reduction lands below 2^32. -/
theorem w32_lt (n : Nat) : w32 n < 4294967296 := Nat.mod_lt _ (by norm_num)

/-- One SHA-256 round preserves well-formed states. -/
theorem roundStep_good (k w : Nat) (st : List Nat) (h : goodWords st) :
    goodWords (roundStep k w st) := by
  unfold roundStep
  split
  · next a b c d e f g hh =>
    refine ⟨rfl, ?_⟩
    intro x hx
    simp only [List.mem_cons, List.not_mem_nil, or_false] at hx
    rcases hx with rfl | rfl | rfl | rfl | rfl | rfl | rfl | rfl
    all_goals first
      | exact w32_lt _
      | exact h.2 _ (by simp)
  all_goals exact h

/-- The SHA-256 round loop preserves well-formed states. -/
theorem compressLoop_good (kws : List (Nat × Nat)) : ∀ st, goodWords st →
    goodWords (compressLoop kws st) := by
  induction kws with
  | nil => intro st h; exact h
  | cons kw rest ih =>
    intro st h
    exact ih _ (roundStep_good kw.1 kw.2 st h)

/-- The final state addition preserves well-formed states. -/
theorem addWords_good (hs out : List Nat) (h : goodWords hs) :
    goodWords (addWords hs out) := by
  unfold addWords
  split
  · refine ⟨rfl, ?_⟩
    intro x hx
    simp only [List.mem_cons, List.not_mem_nil, or_false] at hx
    rcases hx with rfl | rfl | rfl | rfl | rfl | rfl | rfl | rfl <;> exact w32_lt _
  · exact h

/-- Block compression preserves well-formed states. -/
theorem compressBlock_good (hs block : List Nat) (h : goodWords hs) :
    goodWords (compressBlock hs block) :=
  addWords_good _ _ h

/-- Iterated block compression preserves well-formed states. -/
theorem sha256Blocks_good (n : Nat) : ∀ hs ws, goodWords hs →
    goodWords (sha256Blocks n hs ws) := by
  induction n with
  | zero => intro hs ws h; exact h
  | succ n ih => intro hs ws h; exact ih _ _ (compressBlock_good _ _ h)

/-- The final SHA-256 word list is well formed. -/
theorem sha256Words_good (s : String) : goodWords (sha256Words s) :=
  sha256Blocks_good _ _ _ ⟨rfl, by decide⟩

/-- Accumulating words below 2^32 keeps the total below A * 2^(32 len). -/
theorem foldl_word_bound (l : List Nat) : ∀ acc A, (∀ x ∈ l, x < 4294967296) → acc < A →
    l.foldl (fun a w => a * 4294967296 + w) acc < A * 4294967296 ^ l.length := by
  induction l with
  | nil => intro acc A _ hA; simpa using hA
  | cons x xs ih =>
    intro acc A h hA
    have hx : x < 4294967296 := h x (by simp)
    have hstep : acc * 4294967296 + x < A * 4294967296 := by
      calc acc * 4294967296 + x < acc * 4294967296 + 4294967296 := by omega
        _ = (acc + 1) * 4294967296 := by ring
        _ ≤ A * 4294967296 := Nat.mul_le_mul_right _ hA
    have hr := ih (acc * 4294967296 + x) (A * 4294967296) (fun y hy => h y (by simp [hy])) hstep
    calc List.foldl (fun a w => a * 4294967296 + w) (acc * 4294967296 + x) xs
        < A * 4294967296 * 4294967296 ^ xs.length := hr
      _ = A * 4294967296 ^ (x :: xs).length := by
          simp [List.length_cons, pow_succ]; ring

/-- The SHA-256 digest value is below 16^64. -/
theorem sha256Nat_lt (s : String) : sha256Nat s < 16 ^ 64 := by
  have hg := sha256Words_good s
  have hb := foldl_word_bound (sha256Words s) 0 1 hg.2 (by norm_num)
  rw [hg.1] at hb
  calc sha256Nat s < 1 * 4294967296 ^ 8 := hb
    _ = 16 ^ 64 := by norm_num

/-- Python int(·, 16) recovers the digest value from the hex digest. -/
theorem parseHex_sha256hex (s : String) : parseHex (sha256hex s) = some (sha256Nat s) := by
  have hlen : (toHexFixed 64 (sha256Nat s)).length = 64 := toHexFixed_length _ _
  have hne : toHexFixed 64 (sha256Nat s) ≠ [] := by
    intro hcon; rw [hcon] at hlen; simp at hlen
  unfold sha256hex parseHex
  rw [if_neg (by simpa [List.isEmpty_iff] using hne)]
  rw [show (String.mk (toHexFixed 64 (sha256Nat s))).data = toHexFixed 64 (sha256Nat s) from rfl]
  rw [parseHexCore_toHexFixed, Nat.zero_mul, Nat.zero_add, Nat.mod_eq_of_lt (sha256Nat_lt s)]

/-- The source's distance on two real digests is the pure XOR distance. -/
theorem calculate_xor_distance_sha (a b : String) :
    calculate_xor_distance (sha256hex a) (sha256hex b) = some (distTo a b) := by
  unfold calculate_xor_distance distTo
  rw [parseHex_sha256hex, parseHex_sha256hex]

/-- On real digests the loop body equals its pure reformulation. -/
theorem determineStep_eq (m : String) (acc : Nat × String) (kv : String × String) :
    determineStep (sha256hex m) acc kv = some (pureStep m acc kv) := by
  unfold determineStep pureStep
  rw [calculate_xor_distance_sha]
  by_cases h : eligible kv.2 <;> simp [h]

/-- The effectful fold of the source loop equals the pure fold. -/
theorem foldlM_determineStep (m : String) (l : List (String × String)) : ∀ acc,
    l.foldlM (determineStep (sha256hex m)) acc = some (l.foldl (pureStep m) acc) := by
  induction l with
  | nil => intro acc; rfl
  | cons kv rest ih =>
    intro acc
    rw [List.foldlM_cons, determineStep_eq]
    simpa using ih (pureStep m acc kv)

/-- Folding the pure step over the peer list is folding the strict-min step
over the candidate list. -/
theorem foldl_pureStep_eq (m : String) (l : List (String × String)) : ∀ acc,
    l.foldl (pureStep m) acc = (candList m l).foldl selStep acc := by
  induction l with
  | nil => intro acc; rfl
  | cons kv rest ih =>
    intro acc
    by_cases h : eligible kv.2
    · simp [candList, List.filterMap_cons, h, pureStep, selStep, ih, List.foldl_cons]
    · simp [candList, List.filterMap_cons, h, pureStep, ih]

/-- The embedded selector always succeeds and computes the pure selector. -/
theorem determineCore_eq (s : Snap) : determineCore s = some (selectT s) := by
  unfold determineCore
  simp only [calculate_xor_distance_sha, foldlM_determineStep]
  simp [selectT, runState, candidates, foldl_pureStep_eq]

/-- connect_to_datomic always succeeds and acts as connectT: since
determine_current_transactor has already stored the fresh winner in the
global, the reconnection guard can only fire when datomic_client is None. -/
theorem connect_eq (st : St) (s : Snap) :
    connect_to_datomic st s = some (connectT st s) := by
  unfold connect_to_datomic determine_current_transactor connectT
  rw [determineCore_eq]
  cases hc : st.datomic_client with
  | none => simp [hc]
  | some c => simp [hc]

/-! Substring and split lemmas: the part of an info string after its first
colon can influence neither the eligibility test nor the extracted host,
as long as it does not itself contain the marker. -/

/-- A colon-free needle matches a prefix of s ++ ':' :: p independently of p. -/
theorem listPrefixOf_colon : ∀ (n s p p' : List Char), ':' ∉ n →
    listPrefixOf n (s ++ ':' :: p) = listPrefixOf n (s ++ ':' :: p') := by
  intro n
  induction n with
  | nil => intro s p p' _; rfl
  | cons c cs ih =>
    intro s p p' hc
    have hc1 : c ≠ ':' := fun h => hc (h ▸ List.mem_cons_self c cs)
    have hc2 : ':' ∉ cs := fun h => hc (List.mem_cons_of_mem _ h)
    cases s with
    | nil =>
      show (c == ':' && listPrefixOf cs p) = (c == ':' && listPrefixOf cs p')
      have hfalse : (c == ':') = false := by simpa using hc1
      simp [hfalse]
    | cons d ds =>
      show (c == d && listPrefixOf cs (ds ++ ':' :: p)) = (c == d && listPrefixOf cs (ds ++ ':' :: p'))
      rw [ih ds p p' hc2]

/-- Occurrence of a colon-free needle in s ++ ':' :: p depends on p only
through its occurrence in p itself. -/
theorem listContains_colon : ∀ (s n p p' : List Char), ':' ∉ n →
    listContains n p = listContains n p' →
    listContains n (s ++ ':' :: p) = listContains n (s ++ ':' :: p') := by
  intro s
  induction s with
  | nil =>
    intro n p p' hc hpp
    show (listPrefixOf n ([] ++ ':' :: p) || listContains n p) =
      (listPrefixOf n ([] ++ ':' :: p') || listContains n p')
    rw [listPrefixOf_colon n [] p p' hc, hpp]
  | cons d ds ih =>
    intro n p p' hc hpp
    show (listPrefixOf n ((d :: ds) ++ ':' :: p) || listContains n (ds ++ ':' :: p)) =
      (listPrefixOf n ((d :: ds) ++ ':' :: p') || listContains n (ds ++ ':' :: p'))
    rw [listPrefixOf_colon n (d :: ds) p p' hc, ih n p p' hc hpp]

/-- Taking up to the first colon ignores everything after it. -/
theorem takeWhile_colon_indep : ∀ (s p p' : List Char),
    (s ++ ':' :: p).takeWhile (fun c => c != ':') =
      (s ++ ':' :: p').takeWhile (fun c => c != ':') := by
  intro s
  induction s with
  | nil => intro p p'; simp [List.takeWhile_cons]
  | cons d ds ih =>
    intro p p'
    simp only [List.cons_append, List.takeWhile_cons]
    cases hd : (d != ':') <;> simp [ih p p']

/-- Taking up to the first colon of a colon-free prefix returns the prefix. -/
theorem takeWhile_no_colon : ∀ (s p : List Char), (∀ c ∈ s, c ≠ ':') →
    (s ++ ':' :: p).takeWhile (fun c => c != ':') = s := by
  intro s
  induction s with
  | nil => intro p _; simp [List.takeWhile_cons]
  | cons d ds ih =>
    intro p h
    have hd : (d != ':') = true := by simpa using h d (by simp)
    simp only [List.cons_append, List.takeWhile_cons, hd, if_true]
    rw [ih p (fun c hc => h c (by simp [hc]))]

/-- The character data of host ++ ":" ++ p. -/
theorem data_host_port (host p : String) :
    (host ++ ":" ++ p).data = host.data ++ ':' :: p.data := by
  rw [String.data_append, String.data_append]
  simp [show (":" : String).data = [':'] from rfl]

/-- The extracted host of host:port does not depend on the port. -/
theorem hostPart_port_indep (host p p' : String) :
    hostPart (host ++ ":" ++ p) = hostPart (host ++ ":" ++ p') := by
  unfold hostPart
  rw [data_host_port, data_host_port, takeWhile_colon_indep]

/-- The extracted host of host:port is the host when it has no colon. -/
theorem hostPart_host_port (host p : String) (hnc : ∀ c ∈ host.data, c ≠ ':') :
    hostPart (host ++ ":" ++ p) = host := by
  unfold hostPart
  rw [data_host_port, takeWhile_no_colon host.data p.data hnc]

/-- Eligibility of host:port does not depend on the port, as long as the
port does not itself contain the marker "ENABLED". -/
theorem eligible_port_indep (host p p' : String)
    (hp : listContains "ENABLED".data p.data = false)
    (hp' : listContains "ENABLED".data p'.data = false) :
    eligible (host ++ ":" ++ p) = eligible (host ++ ":" ++ p') := by
  unfold eligible
  rw [data_host_port, data_host_port]
  exact listContains_colon host.data "ENABLED".data p.data p'.data (by decide)
    (hp.trans hp'.symm)

/-- The strict-min step commutes on candidates with distinct distances. -/
theorem selStep_comm (z a b : Nat × String) (hab : a.1 ≠ b.1) :
    selStep (selStep z a) b = selStep (selStep z b) a := by
  rcases z with ⟨zd, zw⟩
  rcases a with ⟨ad, aw⟩
  rcases b with ⟨bd, bw⟩
  simp only at hab
  unfold selStep
  simp only
  split_ifs <;> first | rfl | (exfalso; omega)

/-! Digit-level facts for the metric properties of calculate_xor_distance. -/

/-- A lowercase hexadecimal digit parses to a value below 16. -/
theorem hexDigitVal_lower (c : Char) (h : isLowerHexDigit c = true) :
    ∃ v, hexDigitVal c = some v ∧ v < 16 := by
  unfold isLowerHexDigit at h
  simp only [Bool.or_eq_true, Bool.and_eq_true, decide_eq_true_eq] at h
  unfold hexDigitVal
  rcases h with ⟨h1, h2⟩ | ⟨h1, h2⟩
  · rw [if_pos ⟨h1, h2⟩]
    exact ⟨c.toNat - 48, rfl, by omega⟩
  · rw [if_neg (by omega), if_pos ⟨h1, h2⟩]
    exact ⟨c.toNat - 87, rfl, by omega⟩

/-- hexDigitVal is injective on lowercase hexadecimal digits. -/
theorem hexDigitVal_inj (c d : Char) (hc : isLowerHexDigit c = true)
    (hd : isLowerHexDigit d = true) (h : hexDigitVal c = hexDigitVal d) : c = d := by
  unfold isLowerHexDigit at hc hd
  simp only [Bool.or_eq_true, Bool.and_eq_true, decide_eq_true_eq] at hc hd
  have htn : c.toNat = d.toNat := by
    unfold hexDigitVal at h
    rcases hc with ⟨a1, a2⟩ | ⟨a1, a2⟩ <;> rcases hd with ⟨b1, b2⟩ | ⟨b1, b2⟩
    · rw [if_pos ⟨a1, a2⟩, if_pos ⟨b1, b2⟩] at h
      simp only [Option.some.injEq] at h
      omega
    · rw [if_pos ⟨a1, a2⟩, if_neg (by omega), if_pos ⟨b1, b2⟩] at h
      simp only [Option.some.injEq] at h
      omega
    · rw [if_neg (by omega), if_pos ⟨a1, a2⟩, if_pos ⟨b1, b2⟩] at h
      simp only [Option.some.injEq] at h
      omega
    · rw [if_neg (by omega), if_pos ⟨a1, a2⟩, if_neg (by omega), if_pos ⟨b1, b2⟩] at h
      simp only [Option.some.injEq] at h
      omega
  rw [← Char.ofNat_toNat c, ← Char.ofNat_toNat d, htn]

/-- Parsing a list of lowercase hexadecimal digits yields its positional
value shifted into the accumulator. -/
theorem parseHexCore_digits (l : List Char) : ∀ acc,
    (∀ c ∈ l, isLowerHexDigit c = true) →
    parseHexCore acc l = some (acc * 16 ^ l.length + hexValBE l) := by
  induction l with
  | nil => intro acc _; simp [parseHexCore, hexValBE]
  | cons c cs ih =>
    intro acc h
    obtain ⟨v, hv, hlt⟩ := hexDigitVal_lower c (h c (by simp))
    rw [show parseHexCore acc (c :: cs) = parseHexCore (16 * acc + v) cs by
      simp [parseHexCore, hv]]
    rw [ih _ (fun d hd => h d (by simp [hd]))]
    congr 1
    rw [show hexValBE (c :: cs) = (hexDigitVal c).getD 0 * 16 ^ cs.length + hexValBE cs from rfl,
      hv]
    simp only [Option.getD_some, List.length_cons]
    rw [pow_succ]
    ring

/-- The positional value of a digit list is bounded by 16 to its length. -/
theorem hexValBE_lt (l : List Char) (h : ∀ c ∈ l, isLowerHexDigit c = true) :
    hexValBE l < 16 ^ l.length := by
  induction l with
  | nil => simp [hexValBE]
  | cons c cs ih =>
    obtain ⟨v, hv, hlt⟩ := hexDigitVal_lower c (h c (by simp))
    have hcs := ih (fun d hd => h d (by simp [hd]))
    rw [show hexValBE (c :: cs) = (hexDigitVal c).getD 0 * 16 ^ cs.length + hexValBE cs from rfl,
      hv]
    simp only [Option.getD_some, List.length_cons]
    calc v * 16 ^ cs.length + hexValBE cs < v * 16 ^ cs.length + 16 ^ cs.length := by omega
      _ = (v + 1) * 16 ^ cs.length := by ring
      _ ≤ 16 * 16 ^ cs.length := Nat.mul_le_mul_right _ (by omega)
      _ = 16 ^ (cs.length + 1) := by rw [pow_succ]; ring

/-- Equal-length digit lists with equal positional values are equal. -/
theorem hexValBE_inj : ∀ (l₁ l₂ : List Char), l₁.length = l₂.length →
    (∀ c ∈ l₁, isLowerHexDigit c = true) → (∀ c ∈ l₂, isLowerHexDigit c = true) →
    hexValBE l₁ = hexValBE l₂ → l₁ = l₂ := by
  intro l₁
  induction l₁ with
  | nil =>
    intro l₂ hlen _ _ _
    cases l₂ with
    | nil => rfl
    | cons d ds => simp at hlen
  | cons c cs ih =>
    intro l₂ hlen h1 h2 hv
    cases l₂ with
    | nil => simp at hlen
    | cons d ds =>
      have hlen' : cs.length = ds.length := by simpa using hlen
      obtain ⟨vc, hvc, hvc16⟩ := hexDigitVal_lower c (h1 c (by simp))
      obtain ⟨vd, hvd, hvd16⟩ := hexDigitVal_lower d (h2 d (by simp))
      have hbc : hexValBE cs < 16 ^ cs.length := hexValBE_lt cs (fun x hx => h1 x (by simp [hx]))
      have hbd : hexValBE ds < 16 ^ ds.length := hexValBE_lt ds (fun x hx => h2 x (by simp [hx]))
      rw [show hexValBE (c :: cs) = (hexDigitVal c).getD 0 * 16 ^ cs.length + hexValBE cs from rfl,
        show hexValBE (d :: ds) = (hexDigitVal d).getD 0 * 16 ^ ds.length + hexValBE ds from rfl,
        hvc, hvd] at hv
      simp only [Option.getD_some] at hv
      rw [hlen'] at hv hbc
      have hBpos : 0 < 16 ^ ds.length := Nat.pow_pos (by norm_num)
      have e1 : (vc * 16 ^ ds.length + hexValBE cs) / 16 ^ ds.length = vc := by
        rw [mul_comm, Nat.mul_add_div hBpos, Nat.div_eq_of_lt hbc, Nat.add_zero]
      have e2 : (vd * 16 ^ ds.length + hexValBE ds) / 16 ^ ds.length = vd := by
        rw [mul_comm, Nat.mul_add_div hBpos, Nat.div_eq_of_lt hbd, Nat.add_zero]
      have hvcd : vc = vd := by rw [← e1, ← e2, hv]
      have hrest : hexValBE cs = hexValBE ds := by
        rw [hvcd] at hv
        omega
      have hcd : c = d := hexDigitVal_inj c d (h1 c (by simp)) (h2 d (by simp))
        (by rw [hvc, hvd, hvcd])
      rw [hcd, ih ds hlen' (fun x hx => h1 x (by simp [hx])) (fun x hx => h2 x (by simp [hx])) hrest]

/-- Unpacking the digest-string predicate. -/
theorem digestStr_spec (s : String) (h : digestStr s = true) :
    s.data ≠ [] ∧ ∀ c ∈ s.data, isLowerHexDigit c = true := by
  unfold digestStr at h
  simp only [Bool.and_eq_true, Bool.not_eq_true', List.all_eq_true] at h
  exact ⟨by simpa [List.isEmpty_iff] using h.1, h.2⟩

/-- Parsing a digest string yields its positional value. -/
theorem parseHex_digest (s : String) (h : digestStr s = true) :
    parseHex s = some (hexValBE s.data) := by
  obtain ⟨hne, hall⟩ := digestStr_spec s h
  unfold parseHex
  rw [if_neg (by simpa [List.isEmpty_iff] using hne), parseHexCore_digits _ _ hall]
  simp

/-! Connection-manager and maintenance-loop lemmas. -/

/-- Once a Client exists, connect_to_datomic only moves the global target
string: it returns the stored Client and opens nothing. -/
theorem connect_client_stays (st : St) (s : Snap) (c : Client)
    (h : st.datomic_client = some c) :
    connect_to_datomic st s
      = some (c, { st with current_transactor_ip := some (selectT s) }) := by
  rw [connect_eq]
  unfold connectT
  rw [h]

/-- Iterating connect_to_datomic from a state that already holds a Client
returns that same Client on every call and never constructs or opens
anything new. -/
theorem runConnects_sticky (snaps : List Snap) : ∀ st c, st.datomic_client = some c →
    ∃ st', runConnects st snaps = some (List.replicate snaps.length c, st') ∧
      st'.datomic_client = some c ∧ st'.opens = st.opens ∧ st'.nextId = st.nextId ∧
      st'.closes = st.closes := by
  induction snaps with
  | nil => intro st c h; exact ⟨st, rfl, h, rfl, rfl, rfl⟩
  | cons s rest ih =>
    intro st c h
    obtain ⟨st', hrun, hcl, hop, hnx, hcls⟩ :=
      ih { st with current_transactor_ip := some (selectT s) } c h
    refine ⟨st', ?_, hcl, hop, hnx, hcls⟩
    simp only [runConnects]
    rw [connect_client_stays st s c h]
    simp only [Option.some_bind, hrun, Option.map_some']
    simp [List.replicate_succ]

/-! The claims. -/

/-- C2: for a fixed snapshot content (fingerprint, self identity, peer
mapping), determine_current_transactor's winner computation is a pure
deterministic function of the snapshot contents, and it returns the same
winner for every iteration order (permutation) of the peer mapping,
provided no two eligible peers have equal identity-hash distances to the
fingerprint (an exact tie would require a SHA-256 collision; on such a tie
the first-seen candidate wins, so order could matter only there). -/
theorem C2_selector_deterministic_order_independent (s t : Snap)
    (hm : t.merkle_root = s.merkle_root) (hp : t.pastel_id = s.pastel_id)
    (hperm : t.masternode_list.Perm s.masternode_list)
    (hdist : (candidates s).Pairwise (fun a b => a.1 ≠ b.1)) :
    determineCore t = determineCore s := by
  rw [determineCore_eq, determineCore_eq]
  have hcand : (candidates t).Perm (candidates s) := by
    unfold candidates candList
    rw [hm]
    exact hperm.filterMap _
  have hcomm : ∀ x ∈ candidates t, ∀ y ∈ candidates t, ∀ z,
      selStep (selStep z x) y = selStep (selStep z y) x := by
    intro x hx y hy z
    by_cases hxy : x = y
    · rw [hxy]
    · exact selStep_comm z x y
        (List.Pairwise.forall (fun _ _ hne => Ne.symm hne) hdist
          (hcand.mem_iff.mp hx) (hcand.mem_iff.mp hy) hxy)
  have hfold := List.Perm.foldl_eq' hcand hcomm
    (distTo s.merkle_root s.pastel_id, "localhost")
  show some (selectT t) = some (selectT s)
  unfold selectT runState
  rw [hm, hp, hfold]

/-- Witness for C2 at a concrete two-peer snapshot and its transposition. -/
theorem C2_witness :
    snapP2.merkle_root = snapP1.merkle_root ∧
    snapP2.pastel_id = snapP1.pastel_id ∧
    snapP2.masternode_list.Perm snapP1.masternode_list ∧
    (candidates snapP1).Pairwise (fun a b => a.1 ≠ b.1) ∧
    determineCore snapP2 = determineCore snapP1 := by
  have hperm : snapP2.masternode_list.Perm snapP1.masternode_list := by decide
  have hdist : (candidates snapP1).Pairwise (fun a b => a.1 ≠ b.1) := by decide
  exact ⟨rfl, rfl, hperm, hdist,
    C2_selector_deterministic_order_independent snapP1 snapP2 rfl rfl hperm hdist⟩

/-- C3 (amended): a peer whose info string does not contain "ENABLED" as a
substring is skipped entirely: deleting it from the peer list does not
change the winner computation at all. (The source's check is substring
containment, not status equality, so this covers DISABLED but, for
example, not PRE_ENABLED; see the counterexample.) -/
theorem C3_ineligible_substring_skipped (mr pid k info : String)
    (l₁ l₂ : List (String × String)) (h : eligible info = false) :
    determineCore ⟨mr, pid, l₁ ++ (k, info) :: l₂⟩ = determineCore ⟨mr, pid, l₁ ++ l₂⟩ := by
  rw [determineCore_eq, determineCore_eq]
  have hcand : candidates ⟨mr, pid, l₁ ++ (k, info) :: l₂⟩ = candidates ⟨mr, pid, l₁ ++ l₂⟩ := by
    unfold candidates candList
    rw [List.filterMap_append, List.filterMap_append, List.filterMap_cons]
    simp [h]
  show some (selectT _) = some (selectT _)
  unfold selectT runState
  rw [hcand]

/-- Witness for C3 at a concrete DISABLED peer. -/
theorem C3_witness :
    eligible "DISABLED 10.0.0.5:9933" = false ∧
    determineCore ⟨"m1", "selfnode", [] ++ ("nodeD", "DISABLED 10.0.0.5:9933") :: []⟩
      = determineCore ⟨"m1", "selfnode", [] ++ []⟩ :=
  ⟨by decide, C3_ineligible_substring_skipped "m1" "selfnode" "nodeD"
    "DISABLED 10.0.0.5:9933" [] [] (by decide)⟩

/-- C4 (amended): when no peer's info string contains "ENABLED" as a
substring (in particular when the peer mapping is empty, or every peer is
DISABLED), the selector still succeeds and returns the self sentinel
"localhost". The code's notion of ineligibility is this substring test,
not status equality: a snapshot whose only peer has the non-active status
PRE_ENABLED also carries no active/enabled peer, yet does not yield
"localhost" - see the counterexample below. -/
theorem C4_no_eligible_returns_localhost (s : Snap)
    (h : ∀ kv ∈ s.masternode_list, eligible kv.2 = false) :
    determineCore s = some "localhost" := by
  rw [determineCore_eq]
  have hcand : candidates s = [] := by
    unfold candidates candList
    exact List.filterMap_eq_nil_iff.mpr (fun kv hkv => by simp [h kv hkv])
  show some (selectT s) = some "localhost"
  unfold selectT runState
  rw [hcand]
  rfl

/-- Witness for C4 at the empty mapping and at an all-DISABLED mapping. -/
theorem C4_witness :
    (∀ kv ∈ snapD.masternode_list, eligible kv.2 = false) ∧
    determineCore snapD = some "localhost" ∧
    determineCore snapA = some "localhost" :=
  ⟨by decide, C4_no_eligible_returns_localhost snapD (by decide),
    C4_no_eligible_returns_localhost snapA (by decide)⟩

/-- C4 counterexample: in snapC3 the only peer's lifecycle status (the
first token of its info string) is PRE_ENABLED, not the active marker
"ENABLED", so no peer carries the active/enabled status; the claim would
then have the selector return the self sentinel, yet it does not: the
substring eligibility test scores the PRE_ENABLED peer and it wins. -/
theorem C4_counterexample :
    snapC3.masternode_list.length = 1 ∧
    (∀ kv ∈ snapC3.masternode_list, statusOf kv.2 ≠ "ENABLED") ∧
    determineCore snapC3 ≠ some "localhost" := by
  have h : determineCore snapC3 = some "PRE_ENABLED 10.0.0.7" := by decide
  refine ⟨rfl, by decide, ?_⟩
  rw [h]
  decide

/-- C5: the running best is replaced only on strictly smaller distance: an
eligible candidate appended after a prefix whose best distance it exactly
ties does not change the winner, while one with strictly smaller distance
than the running best always becomes the winner. -/
theorem C5_strict_improvement_only (mr pid k info : String) (l : List (String × String))
    (helig : eligible info = true) :
    (distTo mr k = (runState ⟨mr, pid, l⟩).1 →
      determineCore ⟨mr, pid, l ++ [(k, info)]⟩ = determineCore ⟨mr, pid, l⟩) ∧
    (distTo mr k < (runState ⟨mr, pid, l⟩).1 →
      determineCore ⟨mr, pid, l ++ [(k, info)]⟩ = some (hostPart info)) := by
  have hcand : candidates ⟨mr, pid, l ++ [(k, info)]⟩
      = candidates ⟨mr, pid, l⟩ ++ [(distTo mr k, hostPart info)] := by
    unfold candidates candList
    rw [List.filterMap_append]
    simp [helig]
  have hrun : runState ⟨mr, pid, l ++ [(k, info)]⟩
      = selStep (runState ⟨mr, pid, l⟩) (distTo mr k, hostPart info) := by
    unfold runState
    rw [hcand, List.foldl_append]
    rfl
  constructor
  · intro htie
    rw [determineCore_eq, determineCore_eq]
    show some (selectT _) = some (selectT _)
    unfold selectT
    rw [hrun]
    unfold selStep
    rw [if_neg (by rw [htie]; exact lt_irrefl _)]
  · intro hlt
    rw [determineCore_eq]
    show some (selectT _) = some (hostPart info)
    unfold selectT
    rw [hrun]
    unfold selStep
    rw [if_pos hlt]

/-- Witness for C5: a tie with self's own distance (identical identity
string) leaves the winner alone; a strictly smaller distance takes over. -/
theorem C5_witness :
    eligible "10.0.0.9:9933 ENABLED" = true ∧
    distTo "m1" "selfnode" = (runState ⟨"m1", "selfnode", []⟩).1 ∧
    determineCore ⟨"m1", "selfnode", [] ++ [("selfnode", "10.0.0.9:9933 ENABLED")]⟩
      = determineCore ⟨"m1", "selfnode", []⟩ ∧
    distTo "m1" "node4" < (runState ⟨"m1", "selfnode", []⟩).1 ∧
    determineCore ⟨"m1", "selfnode", [] ++ [("node4", "10.0.0.4:9933 ENABLED")]⟩
      = some (hostPart "10.0.0.4:9933 ENABLED") :=
  ⟨by decide, rfl,
   (C5_strict_improvement_only "m1" "selfnode" "selfnode" "10.0.0.9:9933 ENABLED" []
     (by decide)).1 rfl,
   by decide,
   (C5_strict_improvement_only "m1" "selfnode" "node4" "10.0.0.4:9933 ENABLED" []
     (by decide)).2 (by decide)⟩

/-- C6: the winner value is info.split(':')[0], the part of the info string
preceding its first colon; hence changing only the part after the first
colon (the port of a host:port address; assumed, like any real port, not
to contain the marker "ENABLED") never changes the computed winner, and
for a colon-free host the extracted value is exactly the host. -/
theorem C6_port_change_preserves_winner (mr pid k host p p' : String)
    (l₁ l₂ : List (String × String))
    (hp : listContains "ENABLED".data p.data = false)
    (hp' : listContains "ENABLED".data p'.data = false) :
    determineCore ⟨mr, pid, l₁ ++ (k, host ++ ":" ++ p) :: l₂⟩
      = determineCore ⟨mr, pid, l₁ ++ (k, host ++ ":" ++ p') :: l₂⟩ ∧
    ((∀ c ∈ host.data, c ≠ ':') → hostPart (host ++ ":" ++ p) = host) := by
  refine ⟨?_, fun hnc => hostPart_host_port host p hnc⟩
  rw [determineCore_eq, determineCore_eq]
  have hcand : candidates ⟨mr, pid, l₁ ++ (k, host ++ ":" ++ p) :: l₂⟩
      = candidates ⟨mr, pid, l₁ ++ (k, host ++ ":" ++ p') :: l₂⟩ := by
    unfold candidates candList
    rw [List.filterMap_append, List.filterMap_append, List.filterMap_cons, List.filterMap_cons]
    rw [eligible_port_indep host p p' hp hp', hostPart_port_indep host p p']
  show some (selectT _) = some (selectT _)
  unfold selectT runState
  rw [hcand]

/-- Witness for C6 at a concrete eligible peer with two different ports. -/
theorem C6_witness :
    listContains "ENABLED".data ("9933" : String).data = false ∧
    listContains "ENABLED".data ("8000" : String).data = false ∧
    determineCore ⟨"m1", "selfnode", [] ++ ("node1", "ENABLED 10.0.0.2" ++ ":" ++ "9933") :: []⟩
      = determineCore ⟨"m1", "selfnode", [] ++ ("node1", "ENABLED 10.0.0.2" ++ ":" ++ "8000") :: []⟩ ∧
    hostPart ("ENABLED 10.0.0.2" ++ ":" ++ "9933") = "ENABLED 10.0.0.2" := by
  have hc := C6_port_change_preserves_winner "m1" "selfnode" "node1" "ENABLED 10.0.0.2"
    "9933" "8000" [] [] (by decide) (by decide)
  exact ⟨by decide, by decide, hc.1, hc.2 (by decide)⟩

/-- C7: calculate_xor_distance is symmetric on all inputs; it maps a digest
string paired with itself to zero; and on equal-length hex digest strings
it is zero exactly when the two digests are identical. -/
theorem C7_xor_distance_metric :
    (∀ a b : String, calculate_xor_distance a b = calculate_xor_distance b a) ∧
    (∀ a : String, digestStr a = true → calculate_xor_distance a a = some 0) ∧
    (∀ a b : String, digestStr a = true → digestStr b = true → a.length = b.length →
      (calculate_xor_distance a b = some 0 ↔ a = b)) := by
  refine ⟨?_, ?_, ?_⟩
  · intro a b
    unfold calculate_xor_distance
    cases parseHex a <;> cases parseHex b <;> simp [Nat.xor_comm]
  · intro a ha
    unfold calculate_xor_distance
    rw [parseHex_digest a ha]
    simp [Nat.xor_self]
  · intro a b ha hb hlen
    constructor
    · intro h0
      unfold calculate_xor_distance at h0
      rw [parseHex_digest a ha, parseHex_digest b hb] at h0
      simp only [Option.some.injEq] at h0
      have hdata : a.data = b.data :=
        hexValBE_inj a.data b.data hlen (digestStr_spec a ha).2 (digestStr_spec b hb).2
          (Nat.xor_eq_zero.mp h0)
      exact congrArg String.mk hdata
    · intro hab
      subst hab
      unfold calculate_xor_distance
      rw [parseHex_digest a ha]
      simp [Nat.xor_self]

/-- Witness for C7 at concrete equal-length digest strings. -/
theorem C7_witness :
    digestStr "ab12" = true ∧ digestStr "ffff" = true ∧
    ("ab12" : String).length = ("ffff" : String).length ∧
    calculate_xor_distance "ab12" "ffff" = calculate_xor_distance "ffff" "ab12" ∧
    calculate_xor_distance "ab12" "ab12" = some 0 ∧
    (calculate_xor_distance "ab12" "ffff" = some 0 ↔ ("ab12" : String) = "ffff") :=
  ⟨by decide, by decide, by decide,
   C7_xor_distance_metric.1 "ab12" "ffff",
   C7_xor_distance_metric.2.1 "ab12" (by decide),
   C7_xor_distance_metric.2.2 "ab12" "ffff" (by decide) (by decide) (by decide)⟩

/-- C8 counterexample: two hex inputs of different lengths do not produce
any error: the call succeeds and returns their XOR (the source has no
length validation at all). -/
theorem C8_counterexample :
    ("ab" : String).length ≠ ("0abc" : String).length ∧
    calculate_xor_distance "ab" "0abc" = some 2583 := ⟨by decide, by decide⟩

/-- C8 (amended): calculate_xor_distance performs no digest-length
validation: whenever both arguments parse as hexadecimal - equal lengths or
not - the call succeeds and returns the XOR of their integer values; it
fails only when an argument does not parse. -/
theorem C8_no_length_check (a b : String) (va vb : Nat)
    (ha : parseHex a = some va) (hb : parseHex b = some vb) :
    calculate_xor_distance a b = some (va ^^^ vb) := by
  unfold calculate_xor_distance
  rw [ha, hb]

/-- Witness for C8 at inputs of differing lengths. -/
theorem C8_witness :
    parseHex "ab" = some 171 ∧ parseHex "0abc" = some 2748 ∧
    calculate_xor_distance "ab" "0abc" = some (171 ^^^ 2748) :=
  ⟨by decide, by decide, C8_no_length_check "ab" "0abc" 171 2748 (by decide) (by decide)⟩

/-- C3 counterexample: peer nodeC carries lifecycle status PRE_ENABLED (its
info string's first token), which is not the active marker "ENABLED", and
its identity-hash distance beats self; the claim says it can never win, yet
the selector scores it and returns it as the winner (the substring check
"ENABLED" in "PRE_ENABLED ..." passes). -/
theorem C3_counterexample :
    statusOf "PRE_ENABLED 10.0.0.7:9933" = "PRE_ENABLED" ∧
    ("PRE_ENABLED" : String) ≠ "ENABLED" ∧
    determineCore snapC3 = some "PRE_ENABLED 10.0.0.7" ∧
    some "PRE_ENABLED 10.0.0.7" ≠ some "localhost" := by
  have h : determineCore snapC3 = some "PRE_ENABLED 10.0.0.7" := by decide
  exact ⟨by decide, by decide, h, by decide⟩

/-- C1 (code bug evaluation): two consecutive connect_to_datomic calls whose
snapshots select different winners (localhost, then 10.0.0.2). Because
determine_current_transactor has already overwritten the global
current_transactor_ip before line 67 compares against it, the second call
neither closes nor opens anything: it returns the very Client opened for
the first winner, only the target string changes, the open log stays at one
entry, and the close count stays zero (the source has no close call). -/
theorem C1_winner_change_does_not_reconnect :
    determineCore snapA = some "localhost" ∧
    determineCore snapB = some "10.0.0.2" ∧
    connect_to_datomic st0 snapA = some (clientA, stA) ∧
    connect_to_datomic stA snapB = some (clientA, stB) ∧
    stB.datomic_client = stA.datomic_client ∧
    stB.opens = stA.opens ∧ stB.opens = ["localhost:4334/pastel-network"] ∧
    stB.closes = 0 :=
  ⟨by decide, by decide, by decide, by decide, rfl, rfl, rfl, rfl⟩

/-- C9 counterexample: a network failure at the second tick propagates out
of the loop body (there is no exception handler in the source loop): the
run ends in an exception instead of continuing with the third tick. -/
theorem C9_counterexample :
    periodic_connection_check st0 0 [some snapA, none, some snapA] = Except.error () := by
  rfl

/-- C9 (amended): the maintenance loop does not absorb failures: as soon as
one tick's snapshot fetch raises (after any number of successful ticks),
the exception propagates and the loop terminates; no later tick runs. The
surrounding process survives only because the loop runs as a background
task. -/
theorem C9_failure_terminates_loop (rest : List (Option Snap)) :
    ∀ (good : List (Option Snap)) (st : St) (n : Nat), (∀ x ∈ good, x ≠ none) →
    periodic_connection_check st n (good ++ none :: rest) = Except.error () := by
  intro good
  induction good with
  | nil => intro st n _; rfl
  | cons x gs ih =>
    intro st n hg
    have hx : x ≠ none := hg x (by simp)
    obtain ⟨s, rfl⟩ := Option.ne_none_iff_exists'.mp hx
    show periodic_connection_check st n (some s :: (gs ++ none :: rest)) = Except.error ()
    have hconn := connect_eq st s
    simp only [periodic_connection_check, hconn]
    exact ih _ _ (fun y hy => hg y (by simp [hy]))

/-- Witness for C9: one successful tick, then a failing one. -/
theorem C9_witness :
    (∀ x ∈ [some snapA], x ≠ (none : Option Snap)) ∧
    periodic_connection_check st0 0 ([some snapA] ++ none :: []) = Except.error () :=
  ⟨by simp, C9_failure_terminates_loop [] [some snapA] st0 0 (by simp)⟩

/-- C10: determine_current_transactor always leaves the global
current_transactor_ip equal to its return value; every connect_to_datomic
call stores the Client it returns; and once the state holds a Client, every
later call - whatever the snapshots - returns that same Client, keeps it
stored, and never constructs or opens a new one. -/
theorem C10_global_written_and_client_sticky :
    (∀ st s w st', determine_current_transactor st s = some (w, st') →
      st'.current_transactor_ip = some w) ∧
    (∀ st s c st', connect_to_datomic st s = some (c, st') →
      st'.datomic_client = some c) ∧
    (∀ snaps st c, st.datomic_client = some c →
      ∃ st', runConnects st snaps = some (List.replicate snaps.length c, st') ∧
        st'.datomic_client = some c ∧ st'.opens = st.opens ∧ st'.nextId = st.nextId) := by
  refine ⟨?_, ?_, ?_⟩
  · intro st s w st' h
    unfold determine_current_transactor at h
    cases hd : determineCore s with
    | none => rw [hd] at h; exact absurd h (by simp)
    | some v =>
      rw [hd] at h
      simp only [Option.some.injEq, Prod.mk.injEq] at h
      obtain ⟨rfl, rfl⟩ := h
      rfl
  · intro st s c st' h
    rw [connect_eq] at h
    simp only [Option.some.injEq] at h
    unfold connectT at h
    cases hc : st.datomic_client with
    | none =>
      rw [hc] at h
      simp only [Prod.mk.injEq] at h
      obtain ⟨rfl, rfl⟩ := h
      rfl
    | some c0 =>
      rw [hc] at h
      simp only [Prod.mk.injEq] at h
      obtain ⟨rfl, rfl⟩ := h
      rfl
  · intro snaps st c h
    obtain ⟨st', h1, h2, h3, h4, _⟩ := runConnects_sticky snaps st c h
    exact ⟨st', h1, h2, h3, h4⟩

/-- Witness for C10: from a state already holding a Client, two further
calls with different snapshots return that Client both times and open
nothing. -/
theorem C10_witness :
    stA.datomic_client = some clientA ∧
    (∃ st', runConnects stA [snapB, snapA] = some (List.replicate 2 clientA, st') ∧
      st'.datomic_client = some clientA ∧ st'.opens = stA.opens ∧ st'.nextId = stA.nextId) :=
  ⟨rfl, C10_global_written_and_client_sticky.2.2 [snapB, snapA] stA clientA rfl⟩
